import Mathlib

/-!
Verification of the GDCE14Linux crash-reporting watchdog subsystem
(src/sighandler/sighandler.cpp, src/sighandler/watchdog.cpp,
src/sighandler/game.cpp) against its natural-language specification.

The C sources are shallowly embedded: signal numbers are the Linux x86-64
values, the pipe is a byte stream plus a kernel schedule deciding how many
bytes each read call may return, and the watchdog's decode loops are
translated statement by statement into structurally recursive functions.
-/

namespace GDCE14

/-! ## Signal numbers (Linux x86-64 values from signal.h) -/

def SIGHUP : Nat := 1
def SIGINT : Nat := 2
def SIGQUIT : Nat := 3
def SIGILL : Nat := 4
def SIGTRAP : Nat := 5
def SIGIOT : Nat := 6
def SIGBUS : Nat := 7
def SIGFPE : Nat := 8
def SIGSEGV : Nat := 11
def SIGPIPE : Nat := 13
def SIGTERM : Nat := 15
def SIGCHLD : Nat := 17

/-- List of signals the game installs its handler for
(sighandler.cpp, g_interest, lines 16-28). -/
def g_interest : List Nat :=
  [SIGSEGV, SIGILL, SIGHUP, SIGQUIT, SIGTRAP, SIGIOT, SIGBUS, SIGFPE, SIGTERM, SIGINT]

/-- List of signals the game sets to SIG_IGN
(sighandler.cpp, g_ignore, lines 32-38). -/
def g_ignore : List Nat := [SIGCHLD, SIGPIPE]

/-! ## game_signal_handler classification booleans (sighandler.cpp lines 56-64) -/

def coredump (signum : Nat) : Bool :=
  signum == SIGSEGV || signum == SIGQUIT || signum == SIGFPE

def fatal (signum : Nat) : Bool :=
  signum != SIGCHLD && signum != SIGTERM && signum != SIGQUIT

def clean (signum : Nat) : Bool :=
  signum == SIGTERM

/-- Which of the three terminal branches of game_signal_handler
(lines 89-123) runs for a given signal: the if / else-if chain over
coredump, clean, fatal.  noneB models falling through all three. -/
inductive Branch
  | reraiseB
  | retB
  | abortB
  | noneB
deriving DecidableEq, Repr

def handlerBranch (signum : Nat) : Branch :=
  if coredump signum then .reraiseB
  else if clean signum then .retB
  else if fatal signum then .abortB
  else .noneB

/-! ## Signal dispositions and the install model (sighandler.cpp lines 126-212) -/

/-- A signal disposition as recorded or installed by sigaction.  The
other constructor stands for an arbitrary pre-existing handler. -/
inductive Disposition
  | dfl
  | ign
  | gameHandler
  | other (k : Nat)
deriving DecidableEq, Repr

structure InstallResult where
  g_default_actions : List Disposition
  dispOf : Nat → Disposition

/-- Model of sighandler_install: the loop over g_interest stores each
signal's previous disposition into g_default_actions (in g_interest
order, via the third sigaction argument) and installs the game handler;
the loop over g_ignore installs SIG_IGN.  orig is the pre-existing
disposition of each signal. -/
def sighandler_install_model (orig : Nat → Disposition) : InstallResult :=
  { g_default_actions := g_interest.map orig
    dispOf := fun s =>
      if s ∈ g_ignore then .ign
      else if s ∈ g_interest then .gameHandler
      else orig s }

/-- The linear search of game_signal_handler lines 95-103: first index i
with g_interest[i] == signum.  none models the branch in which the C
variable index is left uninitialized. -/
def searchIndex (signum : Nat) : Option Nat :=
  g_interest.findIdx? (fun x => x == signum)

/-- Terminal action taken by one invocation of game_signal_handler. -/
inductive HandlerAct
  | reraise (signum : Nat) (restored : Disposition)
  | reraiseUninit (signum : Nat)
  | ret
  | abortAct
  | fallthrough
deriving DecidableEq, Repr

/-- Model of the tail of game_signal_handler (lines 89-123): on the
coredump branch, look up the signal's index in g_interest, re-install
the stored default action for it and re-raise the same signal; on the
clean branch return; on the fatal branch abort.  reraiseUninit marks
the search failing and the uninitialized index being used. -/
def game_signal_handler_act (table : List Disposition) (signum : Nat) : HandlerAct :=
  if coredump signum then
    match searchIndex signum with
    | some i => .reraise signum (table.getD i .dfl)
    | none => .reraiseUninit signum
  else if clean signum then .ret
  else if fatal signum then .abortAct
  else .fallthrough

/-! ## Claim C3 -/

/-- Claim C3 (confirmed): SIGSEGV, SIGFPE and SIGQUIT take the
core-dump re-raise branch; SIGTERM takes the clean return branch; every
other signal in the interest set takes the abort branch; the two
nuisance signals SIGCHLD and SIGPIPE are installed as SIG_IGN by
sighandler_install and so never enter the handler; and every
interest-set signal takes exactly one of the three terminal branches
(none falls through). -/
theorem claim_C3 (orig : Nat → Disposition) :
    handlerBranch SIGSEGV = Branch.reraiseB ∧
    handlerBranch SIGFPE = Branch.reraiseB ∧
    handlerBranch SIGQUIT = Branch.reraiseB ∧
    handlerBranch SIGTERM = Branch.retB ∧
    (g_interest.all fun s =>
      decide (handlerBranch s = Branch.abortB)
        || [SIGSEGV, SIGFPE, SIGQUIT, SIGTERM].contains s) = true ∧
    (g_interest.all fun s => decide (handlerBranch s ≠ Branch.noneB)) = true ∧
    (sighandler_install_model orig).dispOf SIGCHLD = Disposition.ign ∧
    (sighandler_install_model orig).dispOf SIGPIPE = Disposition.ign :=
  ⟨by decide, by decide, by decide, by decide, by decide, by decide, rfl, rfl⟩

/-- Witness for C3: the theorem applied at a concrete pre-existing
disposition map. -/
theorem claim_C3_witness :
    handlerBranch SIGSEGV = Branch.reraiseB ∧
    handlerBranch SIGFPE = Branch.reraiseB ∧
    handlerBranch SIGQUIT = Branch.reraiseB ∧
    handlerBranch SIGTERM = Branch.retB ∧
    (g_interest.all fun s =>
      decide (handlerBranch s = Branch.abortB)
        || [SIGSEGV, SIGFPE, SIGQUIT, SIGTERM].contains s) = true ∧
    (g_interest.all fun s => decide (handlerBranch s ≠ Branch.noneB)) = true ∧
    (sighandler_install_model fun _ => Disposition.dfl).dispOf SIGCHLD = Disposition.ign ∧
    (sighandler_install_model fun _ => Disposition.dfl).dispOf SIGPIPE = Disposition.ign :=
  claim_C3 (fun _ => Disposition.dfl)

/-! ## Claims C6 and C9 -/

/-- A coredump-classified signal is SIGSEGV, SIGQUIT or SIGFPE. -/
theorem coredump_cases (signum : Nat) (h : coredump signum = true) :
    signum = SIGSEGV ∨ signum = SIGQUIT ∨ signum = SIGFPE := by
  simpa [coredump, SIGSEGV, SIGQUIT, SIGFPE, Bool.or_eq_true, beq_iff_eq, or_assoc] using h

/-- Claim C6 (confirmed): on every CoreDump-classified signal the
handler re-raises the same signal number after restoring the
disposition recorded for it in g_default_actions at install time, which
is exactly the signal's original pre-install disposition. -/
theorem claim_C6 (orig : Nat → Disposition) (signum : Nat) (h : coredump signum = true) :
    game_signal_handler_act
        ((sighandler_install_model orig).g_default_actions) signum
      = HandlerAct.reraise signum (orig signum) := by
  rcases coredump_cases signum h with h1 | h1 | h1 <;> subst h1 <;> rfl

/-- Witness for C6: SIGQUIT with a nontrivial pre-existing disposition. -/
theorem claim_C6_witness :
    coredump SIGQUIT = true ∧
    game_signal_handler_act
        ((sighandler_install_model fun _ => Disposition.other 5).g_default_actions) SIGQUIT
      = HandlerAct.reraise SIGQUIT (Disposition.other 5) :=
  ⟨by decide, claim_C6 (fun _ => Disposition.other 5) SIGQUIT (by decide)⟩

/-- Claim C9 (confirmed): every CoreDump-classified signal occurs in
g_interest, so the linear search of lines 95-103 always finds an index
(at which g_interest holds that very signal) and the branch using the
uninitialized index variable is unreachable for any action table. -/
theorem claim_C9 (signum : Nat) (h : coredump signum = true) :
    (∃ i, searchIndex signum = some i ∧ g_interest.getD i 0 = signum) ∧
    ∀ table : List Disposition,
      game_signal_handler_act table signum ≠ HandlerAct.reraiseUninit signum := by
  rcases coredump_cases signum h with h1 | h1 | h1 <;> subst h1
  · exact ⟨⟨0, by decide, by decide⟩, fun table hc => HandlerAct.noConfusion
      (show HandlerAct.reraise SIGSEGV (table.getD 0 Disposition.dfl)
          = HandlerAct.reraiseUninit SIGSEGV from hc)⟩
  · exact ⟨⟨3, by decide, by decide⟩, fun table hc => HandlerAct.noConfusion
      (show HandlerAct.reraise SIGQUIT (table.getD 3 Disposition.dfl)
          = HandlerAct.reraiseUninit SIGQUIT from hc)⟩
  · exact ⟨⟨7, by decide, by decide⟩, fun table hc => HandlerAct.noConfusion
      (show HandlerAct.reraise SIGFPE (table.getD 7 Disposition.dfl)
          = HandlerAct.reraiseUninit SIGFPE from hc)⟩

/-- Witness for C9 at SIGFPE. -/
theorem claim_C9_witness :
    coredump SIGFPE = true ∧
    ((∃ i, searchIndex SIGFPE = some i ∧ g_interest.getD i 0 = SIGFPE) ∧
      ∀ table : List Disposition,
        game_signal_handler_act table SIGFPE ≠ HandlerAct.reraiseUninit SIGFPE) :=
  ⟨by decide, claim_C9 SIGFPE (by decide)⟩

/-! ## The pipe and the watchdog decode loops (watchdog.cpp lines 76-171)

The pipe is modelled as the byte stream the monitored process has
written (data), a flag saying whether the write end has been closed
after those bytes (closed), and a kernel schedule: one entry per read
call, deciding whether that call fails with EINTR, fails with another
error, or is granted up to n+1 bytes (the +1 keeps every grant
positive, since a read on a nonempty pipe never returns 0).  A read
when the schedule is exhausted, or on an empty pipe that is still open,
blocks forever. -/

def wdSize : Nat := 136
def depthOff : Nat := 128
def stackCap : Nat := 1024
def LF : Nat := 10

inductive Sched
  | grant (n : Nat)
  | eintrS
  | errS
deriving DecidableEq, Repr

structure Pipe where
  data : List Nat
  closed : Bool
  sched : List Sched
deriving DecidableEq, Repr

/-- Unsigned little-endian word formed by the four bytes of wd.depth at
byte offset 128 of the received struct watchdog_data (siginfo_t
occupies bytes 0..127). -/
def depthWord (hdr : List Nat) : Nat :=
  hdr.getD depthOff 0 + 256 * hdr.getD (depthOff + 1) 0
    + 65536 * hdr.getD (depthOff + 2) 0 + 16777216 * hdr.getD (depthOff + 3) 0

/-- Value of the C int wd.depth (two's-complement reading of the word). -/
def decodeDepth (hdr : List Nat) : Int :=
  if depthWord hdr < 2147483648 then (depthWord hdr : Int)
  else (depthWord hdr : Int) - 4294967296

/-- Byte image of struct watchdog_data as written by
game_signal_handler line 81: 128 siginfo bytes, the little-endian
int depth, then 4 bytes of trailing struct padding. -/
def encodeHeader (si : List Nat) (depth : Nat) : List Nat :=
  si ++ [depth % 256, depth / 256 % 256, depth / 65536 % 256,
    depth / 16777216 % 256, 0, 0, 0, 0]

/-- Outcome of the header-reading loop, watchdog.cpp lines 85-118. -/
inductive HeaderOut
  | done (hdr : List Nat) (p : Pipe)
  | cleanEof
  | incompleteH (part : List Nat)
  | blockedH
deriving DecidableEq, Repr

/-- The header-reading loop (watchdog.cpp lines 85-118): while left > 0
run read(pipe, (char *)&wd + sizeof(wd) - left, left); EINTR retries;
retval < 0 otherwise, or retval = 0 with partial progress, yields the
incomplete-information diagnostic; retval = 0 with left still equal to
sizeof(wd) is the clean Pipe EOF; otherwise left -= retval.  acc is the
destination prefix filled so far, so the write offset of the next read
is acc.length = wdSize - left. -/
def headerLoop : List Sched → List Nat → Bool → Nat → List Nat → HeaderOut
  | sched, data, closed, 0, acc => .done acc ⟨data, closed, sched⟩
  | [], _, _, _ + 1, _ => .blockedH
  | .eintrS :: rest, data, closed, left + 1, acc =>
    headerLoop rest data closed (left + 1) acc
  | .errS :: _, _, _, _ + 1, acc => .incompleteH acc
  | .grant n :: rest, data, closed, left + 1, acc =>
    if data.isEmpty then
      if closed then
        if left + 1 = wdSize then .cleanEof else .incompleteH acc
      else .blockedH
    else
      headerLoop rest (data.drop (min (min (n + 1) (left + 1)) data.length)) closed
        (left + 1 - min (min (n + 1) (left + 1)) data.length)
        (acc ++ data.take (min (min (n + 1) (left + 1)) data.length))

/-- Whenever the header loop completes, it has consumed exactly the
first left bytes of the pipe, appended in order to the destination
prefix, and the rest of the pipe is untouched. -/
theorem headerLoop_done_eq (sched : List Sched) (data : List Nat) (closed : Bool)
    (left : Nat) (acc hdr : List Nat) (p : Pipe)
    (h : headerLoop sched data closed left acc = .done hdr p) :
    hdr = acc ++ data.take left ∧ p.data = data.drop left ∧ p.closed = closed := by
  induction sched generalizing data left acc with
  | nil =>
    match left with
    | 0 =>
      obtain ⟨h1, h2⟩ := HeaderOut.done.inj h
      subst h2
      exact ⟨by simpa using h1.symm, by simp, rfl⟩
    | l + 1 => simp [headerLoop] at h
  | cons s rest ih =>
    match left with
    | 0 =>
      simp only [headerLoop] at h
      obtain ⟨h1, h2⟩ := HeaderOut.done.inj h
      subst h2
      exact ⟨by simpa using h1.symm, by simp, rfl⟩
    | l + 1 =>
      match s with
      | .eintrS => exact ih data (l + 1) acc h
      | .errS => simp [headerLoop] at h
      | .grant n =>
        simp only [headerLoop] at h
        by_cases hD : data.isEmpty
        · rw [if_pos hD] at h
          by_cases hcl : closed = true
          · rw [if_pos hcl] at h
            split at h <;> simp at h
          · rw [if_neg hcl] at h; simp at h
        · rw [if_neg hD] at h
          have hd1 : 1 ≤ data.length :=
            Nat.one_le_iff_ne_zero.mpr (by
              simpa [List.isEmpty_iff_length_eq_zero] using hD)
          have hg1 : 1 ≤ min (min (n + 1) (l + 1)) data.length :=
            le_min (le_min (Nat.succ_le_succ (Nat.zero_le n))
              (Nat.succ_le_succ (Nat.zero_le l))) hd1
          have hgl : min (min (n + 1) (l + 1)) data.length ≤ l + 1 :=
            le_trans (min_le_left _ _) (min_le_right _ _)
          obtain ⟨e1, e2, e3⟩ := ih _ _ _ h
          refine ⟨?_, ?_, e3⟩
          · rw [e1, List.append_assoc, ← List.take_add,
              Nat.add_sub_cancel' hgl]
          · rw [e2, List.drop_drop, Nat.add_sub_cancel' hgl]

/-- Erase the leftover kernel schedule from a header outcome, keeping
what the code can observe: the header bytes and the remaining pipe
content. -/
def headerObs : HeaderOut → HeaderOut
  | .done hdr p => .done hdr ⟨p.data, p.closed, []⟩
  | o => o

/-- The header loop is insensitive to EINTR schedule entries: deleting
them from the schedule leaves the observable outcome unchanged. -/
theorem headerLoop_eintr_transparent (sched : List Sched) (data : List Nat)
    (closed : Bool) (left : Nat) (acc : List Nat) :
    headerObs (headerLoop sched data closed left acc)
      = headerObs (headerLoop (sched.filter fun s => s != Sched.eintrS)
          data closed left acc) := by
  induction sched generalizing data left acc with
  | nil => rfl
  | cons s rest ih =>
    match left with
    | 0 => simp only [headerLoop, headerObs]
    | l + 1 =>
      match s with
      | .eintrS => exact ih data (l + 1) acc
      | .errS => rfl
      | .grant n =>
        show headerObs (headerLoop (Sched.grant n :: rest) data closed (l + 1) acc)
          = headerObs (headerLoop (Sched.grant n :: rest.filter fun s => s != Sched.eintrS)
              data closed (l + 1) acc)
        simp only [headerLoop]
        by_cases hD : data.isEmpty
        · rw [if_pos hD, if_pos hD]
        · rw [if_neg hD, if_neg hD]
          exact ih _ _ _

/-- Claim C5 (confirmed): whenever the header-reading loop completes, it
has consumed exactly the wdSize header bytes of the stream in order (so
each successful read advanced the destination by the bytes already
consumed and left tracked the remaining count correctly), regardless of
how the reads fragmented the bytes; and EINTR failures are retried
transparently, leaving the observable outcome identical to a schedule
without them. -/
theorem claim_C5 (sched : List Sched) (data : List Nat) (closed : Bool)
    (hdr : List Nat) (p : Pipe)
    (h : headerLoop sched data closed wdSize [] = .done hdr p) :
    hdr = data.take wdSize ∧ p.data = data.drop wdSize ∧ p.closed = closed ∧
    headerObs (headerLoop sched data closed wdSize [])
      = headerObs (headerLoop (sched.filter fun s => s != Sched.eintrS)
          data closed wdSize []) := by
  obtain ⟨h1, h2, h3⟩ := headerLoop_done_eq sched data closed wdSize [] hdr p h
  exact ⟨by simpa using h1, h2, h3,
    headerLoop_eintr_transparent sched data closed wdSize []⟩

set_option maxRecDepth 8192 in
/-- Witness for C5: a 200-byte stream delivered as 100 bytes, an EINTR,
then the remaining 36 header bytes. -/
theorem claim_C5_witness :
    headerLoop [Sched.grant 99, Sched.eintrS, Sched.grant 999]
        (List.replicate 200 7) false wdSize []
      = .done (List.replicate 136 7) ⟨List.replicate 64 7, false, []⟩ ∧
    ((List.replicate 136 7 : List Nat) = (List.replicate 200 7).take wdSize ∧
      (List.replicate 64 7 : List Nat) = (List.replicate 200 7).drop wdSize ∧
      false = false ∧
      headerObs (headerLoop [Sched.grant 99, Sched.eintrS, Sched.grant 999]
          (List.replicate 200 7) false wdSize [])
        = headerObs (headerLoop ([Sched.grant 99, Sched.eintrS, Sched.grant 999].filter
            fun s => s != Sched.eintrS) (List.replicate 200 7) false wdSize [])) :=
  ⟨by decide, claim_C5 [Sched.grant 99, Sched.eintrS, Sched.grant 999]
    (List.replicate 200 7) false (List.replicate 136 7)
    ⟨List.replicate 64 7, false, []⟩ (by decide)⟩


/-! ## The stack-text loop (watchdog.cpp lines 120-157) -/

/-- Outcome of the stack-text loop.  pos is s - stack (bytes
accumulated); oob records whether any of the NUL terminator writes
s[retval] = 0 landed at an offset outside the 1024-byte stack buffer. -/
inductive StackOut
  | doneS (pos : Nat) (oob : Bool) (p : Pipe)
  | errSOut (pos : Nat) (oob : Bool)
  | blockedS (oob : Bool)
deriving DecidableEq, Repr

/-- Newlines counted by the strchr loop of lines 151-153 over one chunk:
LF characters before the first NUL byte (the terminator is written at
the end of the chunk, but a stray NUL inside it would stop strchr). -/
def countLF (chunk : List Nat) : Nat :=
  (chunk.takeWhile fun b => b != 0).count LF

/-- On a chunk without NUL bytes the strchr loop counts every LF. -/
theorem countLF_eq_count (c : List Nat) (hz : (0 : Nat) ∉ c) :
    countLF c = c.count LF := by
  have h : c.takeWhile (fun b => b != 0) = c :=
    List.takeWhile_eq_self_iff.mpr (fun x hx => by
      simp only [bne_iff_ne, ne_eq]
      exact fun h0 => hz (h0 ▸ hx))
  unfold countLF
  rw [h]

/-- The stack-text loop (watchdog.cpp lines 122-157): while left > 0
run read(pipe, s, sizeof(stack) - (s - stack)); EINTR retries; another
error is the incomplete diagnostic and terminates; retval = 0 (EOF, or
a read whose count argument is already 0 because the buffer is full)
truncates the trace by setting left = 0; otherwise the NUL terminator
is written at offset pos + retval, the LFs of the chunk are subtracted
from left, and s advances by retval.  Modelled with Nat left: the C int
may go negative on the last chunk, but is then only compared > 0, so
truncated subtraction is equivalent. -/
def stackLoop : List Sched → List Nat → Bool → Nat → Nat → Bool → StackOut
  | sched, data, closed, 0, pos, oob => .doneS pos oob ⟨data, closed, sched⟩
  | [], _, _, _ + 1, _, oob => .blockedS oob
  | .eintrS :: rest, data, closed, left + 1, pos, oob =>
    stackLoop rest data closed (left + 1) pos oob
  | .errS :: _, _, _, _ + 1, pos, oob => .errSOut pos oob
  | .grant n :: rest, data, closed, left + 1, pos, oob =>
    if stackCap - pos = 0 then
      .doneS pos (oob || decide (stackCap ≤ pos)) ⟨data, closed, rest⟩
    else if data.isEmpty then
      if closed then .doneS pos (oob || decide (stackCap ≤ pos)) ⟨data, closed, rest⟩
      else .blockedS oob
    else
      stackLoop rest (data.drop (min (min (n + 1) (stackCap - pos)) data.length)) closed
        (left + 1 - countLF (data.take (min (min (n + 1) (stackCap - pos)) data.length)))
        (pos + min (min (n + 1) (stackCap - pos)) data.length)
        (oob || decide (stackCap ≤ pos + min (min (n + 1) (stackCap - pos)) data.length))

set_option maxRecDepth 100000 in
/-- Claim C10 (code_bug): a single read that returns exactly the
remaining buffer capacity (here 1024 bytes into the empty buffer)
makes the code write the NUL terminator at stack[1024], one byte past
the 1024-byte buffer: the loop finishes with the out-of-bounds flag
set, and offset 1024 is not strictly inside the buffer. -/
theorem claim_C10_thm :
    stackLoop [Sched.grant 2000] (List.replicate 1023 65 ++ [LF]) true 1 0 false
      = StackOut.doneS 1024 true ⟨[], true, []⟩ ∧ ¬ (1024 < stackCap) :=
  ⟨by decide, by decide⟩

/-- Completion lemma for the stack-text loop: on a stream that is
exactly a sequence of LF-terminated NUL-free lines fitting inside the
stack buffer, with a schedule of enough successful reads fragmenting it
arbitrarily, the loop consumes exactly the whole stream - that is,
exactly as many LF-terminated lines as its initial left count - with
every terminator write in bounds. -/
theorem stackLoop_complete (sched : List Sched) (rem : List Nat) (closed : Bool) (pos : Nat)
    (hsched : ∀ s ∈ sched, ∃ n, s = Sched.grant n)
    (hcnt : rem.length ≤ sched.length)
    (hz : (0 : Nat) ∉ rem)
    (hlast : rem = [] ∨ rem.getLast? = some LF)
    (hfit : pos + rem.length < stackCap) :
    ∃ rest, stackLoop sched rem closed (rem.count LF) pos false
      = .doneS (pos + rem.length) false ⟨[], closed, rest⟩ := by
  induction sched generalizing rem pos with
  | nil =>
    have hre : rem = [] := List.length_eq_zero.mp (Nat.le_zero.mp hcnt)
    subst hre
    exact ⟨[], by simp [stackLoop]⟩
  | cons s rest ih =>
    by_cases hrem : rem = []
    · subst hrem
      exact ⟨s :: rest, by simp [stackLoop]⟩
    · have hlastS : rem.getLast? = some LF := hlast.resolve_left hrem
      have hmem : LF ∈ rem := List.mem_of_getLast?_eq_some hlastS
      have hcpos : 0 < rem.count LF := List.count_pos_iff.mpr hmem
      obtain ⟨m, hm⟩ : ∃ m, rem.count LF = m + 1 :=
        ⟨rem.count LF - 1, (Nat.succ_pred_eq_of_pos hcpos).symm⟩
      obtain ⟨n, hn⟩ := hsched s (List.mem_cons_self s rest)
      subst hn
      rw [hm]
      have hlen1 : 1 ≤ rem.length := List.length_pos.mpr hrem
      have hcapne : ¬ stackCap - pos = 0 := by
        unfold stackCap at hfit ⊢; omega
      simp only [stackLoop]
      rw [if_neg hcapne, if_neg (by simpa [List.isEmpty_iff] using hrem :
        ¬ rem.isEmpty = true)]
      set g := min (min (n + 1) (stackCap - pos)) rem.length with hg
      have hg1 : 1 ≤ g := le_min (le_min (by omega) (by omega)) hlen1
      have hglen : g ≤ rem.length := min_le_right _ _
      have hsplit : rem.count LF = (rem.take g).count LF + (rem.drop g).count LF := by
        conv_lhs => rw [← List.take_append_drop g rem]
        rw [List.count_append]
      have hzT : (0 : Nat) ∉ rem.take g := fun hx => hz (List.take_subset _ _ hx)
      have hclf : countLF (rem.take g) = (rem.take g).count LF := countLF_eq_count _ hzT
      have hoobF : decide (stackCap ≤ pos + g) = false := decide_eq_false (by omega)
      have hcnt2 : (rem.drop g).length ≤ rest.length := by
        rw [List.length_drop]
        have := hcnt
        simp only [List.length_cons] at this
        omega
      have hz2 : (0 : Nat) ∉ rem.drop g := fun hx => hz (List.drop_subset _ _ hx)
      have hlast2 : rem.drop g = [] ∨ (rem.drop g).getLast? = some LF := by
        by_cases hd : rem.drop g = []
        · exact Or.inl hd
        · refine Or.inr ?_
          have hre := hlastS
          conv_lhs at hre => rw [← List.take_append_drop g rem]
          rw [List.getLast?_append] at hre
          rcases ho : (rem.drop g).getLast? with _ | y
          · exact absurd (List.getLast?_eq_none_iff.mp ho) hd
          · rw [ho] at hre
            simpa [Option.or] using hre
      have hfit2 : (pos + g) + (rem.drop g).length < stackCap := by
        rw [List.length_drop]; omega
      obtain ⟨rest2, hrec⟩ := ih (rem.drop g) (pos + g)
        (fun x hx => hsched x (List.mem_cons_of_mem _ hx)) hcnt2 hz2 hlast2 hfit2
      have hleft : m + 1 - countLF (rem.take g) = (rem.drop g).count LF := by
        rw [hclf]; omega
      have hposeq : (pos + g) + (rem.drop g).length = pos + rem.length := by
        rw [List.length_drop]; omega
      refine ⟨rest2, ?_⟩
      rw [hoobF, Bool.or_false, hleft, hrec, hposeq]


/-! ## Claim C2: round trip of the frame count -/

/-- The depth field round-trips through the wire format: encoding a
depth up to the 64-frame bound and decoding the received header bytes
gives back the same count. -/
theorem decode_encode (si : List Nat) (d : Nat) (hsi : si.length = 128) (hd : d ≤ 64) :
    decodeDepth (encodeHeader si d) = (d : Int) := by
  have hw : depthWord (encodeHeader si d) = d := by
    unfold depthWord encodeHeader depthOff
    rw [List.getD_append_right _ _ _ _ (by omega),
      List.getD_append_right _ _ _ _ (by omega),
      List.getD_append_right _ _ _ _ (by omega),
      List.getD_append_right _ _ _ _ (by omega)]
    simp only [hsi]
    norm_num
    omega
  unfold decodeDepth
  rw [hw, if_pos (by omega)]

/-- A concatenation of LF-terminated lines has as many LFs as lines. -/
theorem flatten_count_lf (lines : List (List Nat))
    (h : ∀ l ∈ lines, ∃ b, l = b ++ [LF] ∧ LF ∉ b ∧ (0 : Nat) ∉ b) :
    lines.flatten.count LF = lines.length := by
  induction lines with
  | nil => simp
  | cons l ls ih =>
    obtain ⟨b, hb, hnb, _⟩ := h l (List.mem_cons_self _ _)
    rw [List.flatten_cons, List.count_append, hb, List.count_append,
      List.count_eq_zero.mpr hnb, ih (fun x hx => h x (List.mem_cons_of_mem _ hx))]
    simp [List.length_cons]
    omega

/-- A concatenation of LF-terminated NUL-free lines has no NUL byte. -/
theorem flatten_no_zero (lines : List (List Nat))
    (h : ∀ l ∈ lines, ∃ b, l = b ++ [LF] ∧ LF ∉ b ∧ (0 : Nat) ∉ b) :
    (0 : Nat) ∉ lines.flatten := by
  intro hx
  obtain ⟨l, hl, hxl⟩ := List.mem_flatten.mp hx
  obtain ⟨b, hb, _, hzb⟩ := h l hl
  subst hb
  rcases List.mem_append.mp hxl with hc | hc
  · exact hzb hc
  · simp [LF] at hc

/-- A nonempty concatenation of LF-terminated lines ends with LF. -/
theorem flatten_last_lf (lines : List (List Nat))
    (h : ∀ l ∈ lines, ∃ b, l = b ++ [LF] ∧ LF ∉ b ∧ (0 : Nat) ∉ b) :
    lines.flatten = [] ∨ lines.flatten.getLast? = some LF := by
  induction lines with
  | nil => exact Or.inl rfl
  | cons l ls ih =>
    refine Or.inr ?_
    obtain ⟨b, hb, _, _⟩ := h l (List.mem_cons_self _ _)
    rw [List.flatten_cons, List.getLast?_append]
    rcases ih (fun x hx => h x (List.mem_cons_of_mem _ hx)) with h1 | h1
    · rw [h1, hb, List.getLast?_append]
      rfl
    · rw [h1]
      rfl

/-- Claim C2 (corrected): for a transmitted report of D frames whose
stack text fits inside the watchdog's 1024-byte stack buffer, the
decoded frame count equals D and the stack-text loop consumes exactly
the D LF-terminated lines - the whole text and nothing else - no matter
how the schedule fragments the reads (one big read and many one-byte
reads included); D = 0 consumes nothing.  The buffer bound is necessary:
see the counterexample for longer texts. -/
theorem claim_C2 (lines : List (List Nat)) (sched : List Sched) (closed : Bool)
    (si : List Nat)
    (hline : ∀ l ∈ lines, ∃ b, l = b ++ [LF] ∧ LF ∉ b ∧ (0 : Nat) ∉ b)
    (hsched : ∀ s ∈ sched, ∃ n, s = Sched.grant n)
    (hcnt : lines.flatten.length ≤ sched.length)
    (hfit : lines.flatten.length < stackCap)
    (hsi : si.length = 128) (hd : lines.length ≤ 64) :
    decodeDepth (encodeHeader si lines.length) = (lines.length : Int) ∧
    ∃ rest, stackLoop sched lines.flatten closed lines.length 0 false
      = .doneS lines.flatten.length false ⟨[], closed, rest⟩ := by
  refine ⟨decode_encode si lines.length hsi hd, ?_⟩
  have hc := flatten_count_lf lines hline
  have h0 := flatten_no_zero lines hline
  have hl := flatten_last_lf lines hline
  have hres := stackLoop_complete sched lines.flatten closed 0 hsched hcnt h0 hl
    (by simpa using hfit)
  rw [hc] at hres
  simpa using hres

/-- Witness for C2: a two-line report delivered byte by byte. -/
theorem claim_C2_witness :
    decodeDepth (encodeHeader (List.replicate 128 0) 2) = 2 ∧
    ∃ rest, stackLoop [Sched.grant 0, Sched.grant 0, Sched.grant 9]
        ([[65, LF], [LF]] : List (List Nat)).flatten false
        ([[65, LF], [LF]] : List (List Nat)).length 0 false
      = .doneS ([[65, LF], [LF]] : List (List Nat)).flatten.length false
          ⟨[], false, rest⟩ :=
  claim_C2 [[65, LF], [LF]] [Sched.grant 0, Sched.grant 0, Sched.grant 9] false
    (List.replicate 128 0)
    (by
      intro l hl
      simp only [List.mem_cons, List.not_mem_nil, or_false] at hl
      rcases hl with h | h <;> subst h
      · exact ⟨[65], rfl, by decide, by decide⟩
      · exact ⟨[], rfl, by decide, by decide⟩)
    (by
      intro s hs
      simp only [List.mem_cons, List.not_mem_nil, or_false] at hs
      rcases hs with h | h | h <;> subst h
      · exact ⟨0, rfl⟩
      · exact ⟨0, rfl⟩
      · exact ⟨9, rfl⟩)
    (by decide) (by decide) (by simp) (by decide)

set_option maxRecDepth 100000 in
/-- Counterexample to C2 as stated: a report with frame count 2 whose
two LF-terminated lines total 1026 bytes.  The first read returns 1024
bytes (one LF); the next read is issued with count 0 because the buffer
is full, returns 0, and the code truncates the trace: only 1 of the 2
lines is consumed and the remaining bytes are left in the pipe, so the
frame count does not equal the number of LF-terminated lines consumed. -/
theorem claim_C2_cex :
    stackLoop [Sched.grant 2000, Sched.grant 2000]
        (List.replicate 1023 65 ++ [LF, 66, LF]) true 2 0 false
      = StackOut.doneS 1024 true ⟨[66, LF], true, []⟩ ∧
    ((List.replicate 1023 65 ++ [LF, 66, LF]).take 1024).count LF = 1 ∧
    (1 : Nat) ≠ 2 :=
  ⟨by decide, by decide, by decide⟩


/-! ## The outer decode loop (watchdog.cpp lines 80-171) and claims C1, C4 -/

/-- Diagnostic a terminating run prints last: the clean Pipe EOF
message (line 113), the incomplete-information message from the header
phase (lines 104-108), or the same message from a stack-text I/O error
(lines 136-139). -/
inductive Diag
  | cleanBoundary
  | incompleteHeader
  | incompleteStack
deriving DecidableEq, Repr

inductive RunOut
  | exitR (status : Nat) (d : Diag) (oob : Bool)
  | blockedRun (oob : Bool)
deriving DecidableEq, Repr

/-- The outer decode loop of watchdog (lines 80-171): read a full
header, read the stack text for the decoded depth, print, repeat.
gExit models the g_watchdog_exit flag: it is part of the watchdog
process state, but - faithfully to the code, whose loop condition is
while (true) - no branch of the loop reads it.  fuel bounds the number
of decoded reports; exhausting it counts as blocked.  Every goto die
path runs return 0 (line 171), so every exitR carries status 0. -/
def watchdogRun : Bool → Nat → List Sched → List Nat → Bool → Bool → RunOut
  | _, 0, _, _, _, oob => .blockedRun oob
  | gExit, fuel + 1, sched, data, closed, oob =>
    match headerLoop sched data closed wdSize [] with
    | .cleanEof => .exitR 0 .cleanBoundary oob
    | .incompleteH _ => .exitR 0 .incompleteHeader oob
    | .blockedH => .blockedRun oob
    | .done hdr p =>
      match stackLoop p.sched p.data p.closed (decodeDepth hdr).toNat 0 oob with
      | .errSOut _ oob2 => .exitR 0 .incompleteStack oob2
      | .blockedS oob2 => .blockedRun oob2
      | .doneS _ oob2 p2 => watchdogRun gExit fuel p2.sched p2.data p2.closed oob2

set_option maxRecDepth 100000 in
/-- Counterexample to C1 as stated: the channel is closed after only 3
of the header's bytes were written.  The watchdog emits the
incomplete-information diagnostic and terminates - but with exit status
0, not the claimed status 1, because every exit path of watchdog()
executes return 0. -/
theorem claim_C1_cex :
    watchdogRun false 1 [Sched.grant 200, Sched.grant 200] [1, 2, 3] true false
      = RunOut.exitR 0 Diag.incompleteHeader false ∧ (0 : Nat) ≠ 1 :=
  ⟨by decide, by decide⟩

/-- Claim C1 (corrected): the decode loop still distinguishes the three
conditions by diagnostics - clean end-of-stream at a message boundary,
end-of-stream or I/O error inside a header (explicit
incomplete-information diagnostic, without hanging), and an I/O error
inside the stack text (end-of-stream there truncates and continues) -
but every terminating execution exits with status 0: the code has no
path returning 1 or 2. -/
theorem claim_C1_amended (gExit : Bool) (fuel : Nat) (sched : List Sched)
    (data : List Nat) (closed oob : Bool) (status : Nat) (d : Diag) (oob2 : Bool)
    (h : watchdogRun gExit fuel sched data closed oob = .exitR status d oob2) :
    status = 0 := by
  induction fuel generalizing sched data closed oob with
  | zero => exact RunOut.noConfusion h
  | succ m ih =>
    simp only [watchdogRun] at h
    split at h
    · exact ((RunOut.exitR.inj h).1).symm
    · exact ((RunOut.exitR.inj h).1).symm
    · exact RunOut.noConfusion h
    · split at h
      · exact ((RunOut.exitR.inj h).1).symm
      · exact RunOut.noConfusion h
      · exact ih _ _ _ _ h

set_option maxRecDepth 100000 in
/-- Witness for C1: the clean-boundary run, exiting with status 0. -/
theorem claim_C1_witness :
    watchdogRun false 1 [Sched.grant 5] [] true false
      = RunOut.exitR 0 Diag.cleanBoundary false ∧ (0 : Nat) = 0 :=
  ⟨by decide, claim_C1_amended false 1 [Sched.grant 5] [] true false 0
    Diag.cleanBoundary false (by decide)⟩

/-- The watchdog's narrow signal handler, watchdog.cpp lines 21-35: on
SIGCHLD for the monitored pid it sets the g_watchdog_exit flag,
otherwise it leaves the flag unchanged. -/
def watchdog_signal_handler_model (flag : Bool) (si_pid g_game : Nat) : Bool :=
  if si_pid = g_game then true else flag

set_option maxRecDepth 100000 in
/-- Claim C4 (code_bug): the handler does record the counterpart's
termination in g_watchdog_exit, but the decode loop - do ... while
(true), exits only through goto die on end-of-stream or error - never
reads the flag: with the flag set (first conjunct) and an empty but
still-open pipe, the run blocks in read instead of finishing draining
and exiting, and the outcome is identical whichever value the flag has
(second and third conjuncts, watchdogRun with gExit true and false).
In practice the loop ends only because the dead counterpart's write
end closes and read reports end-of-stream. -/
theorem claim_C4_thm :
    watchdog_signal_handler_model false 4242 4242 = true ∧
    watchdogRun true 3 [Sched.grant 9, Sched.grant 9, Sched.grant 9] [] false false
      = RunOut.blockedRun false ∧
    watchdogRun false 3 [Sched.grant 9, Sched.grant 9, Sched.grant 9] [] false false
      = RunOut.blockedRun false :=
  ⟨by decide, by decide, by decide⟩


/-! ## Claim C7: the capture spinlock (sighandler.cpp lines 66-87)

Interleaving model of n monitored threads running game_signal_handler:
each thread faults, spins on pthread_spin_lock(&g_handler_lock), then
while holding the lock performs the header write (line 81) and the
stack-text write (line 84), then unlocks (line 87).  The spinlock
acquire is atomic: it succeeds only when no thread holds the lock. -/

inductive TPc
  | idle
  | want
  | writeHdr
  | writeStk
  | afterCS
deriving DecidableEq

structure LockSys (n : Nat) where
  pcs : Fin n → TPc
  lock : Option (Fin n)

def lockInit (n : Nat) : LockSys n := ⟨fun _ => TPc.idle, none⟩

inductive LStep {n : Nat} : LockSys n → LockSys n → Prop
  | fault (s : LockSys n) (i : Fin n) (h : s.pcs i = TPc.idle) :
      LStep s ⟨Function.update s.pcs i TPc.want, s.lock⟩
  | acquire (s : LockSys n) (i : Fin n) (h : s.pcs i = TPc.want) (hf : s.lock = none) :
      LStep s ⟨Function.update s.pcs i TPc.writeHdr, some i⟩
  | headerWrite (s : LockSys n) (i : Fin n) (h : s.pcs i = TPc.writeHdr) :
      LStep s ⟨Function.update s.pcs i TPc.writeStk, s.lock⟩
  | releaseL (s : LockSys n) (i : Fin n) (h : s.pcs i = TPc.writeStk) :
      LStep s ⟨Function.update s.pcs i TPc.afterCS, none⟩

inductive LReach {n : Nat} : LockSys n → Prop
  | init : LReach (lockInit n)
  | step (s t : LockSys n) (hs : LReach s) (ht : LStep s t) : LReach t

/-- A thread with an in-flight write to the channel: it is between the
spinlock acquire and the release, executing the header write or the
stack-text write. -/
def inWrite {n : Nat} (s : LockSys n) (i : Fin n) : Prop :=
  s.pcs i = TPc.writeHdr ∨ s.pcs i = TPc.writeStk

/-- Unchanged program counters keep their in-write status when another
thread's counter is updated. -/
theorem inWrite_update_ne {n : Nat} (pcs : Fin n → TPc) (i j : Fin n) (v : TPc)
    (hji : j ≠ i)
    (hj : Function.update pcs i v j = TPc.writeHdr ∨
      Function.update pcs i v j = TPc.writeStk) :
    pcs j = TPc.writeHdr ∨ pcs j = TPc.writeStk := by
  rwa [Function.update_noteq hji] at hj

/-- Every thread with an in-flight write holds the spinlock. -/
theorem lockInv_reach {n : Nat} (s : LockSys n) (h : LReach s) :
    ∀ i, inWrite s i → s.lock = some i := by
  induction h with
  | init =>
    intro i hi
    rcases hi with hi | hi <;> exact absurd hi (by simp [lockInit])
  | step s t hs ht ih =>
    intro j hj
    cases ht with
    | fault i hpc =>
      rcases eq_or_ne j i with hji | hji
      · subst hji
        rcases hj with hj | hj <;> simp [Function.update_same] at hj
      · exact ih j (inWrite_update_ne s.pcs i j TPc.want hji hj)
    | acquire i hpc hf =>
      rcases eq_or_ne j i with hji | hji
      · subst hji; rfl
      · exact absurd (ih j (inWrite_update_ne s.pcs i j TPc.writeHdr hji hj))
          (by rw [hf]; simp)
    | headerWrite i hpc =>
      rcases eq_or_ne j i with hji | hji
      · subst hji
        exact ih _ (Or.inl hpc)
      · exact ih j (inWrite_update_ne s.pcs i j TPc.writeStk hji hj)
    | releaseL i hpc =>
      rcases eq_or_ne j i with hji | hji
      · subst hji
        rcases hj with hj | hj <;> simp [Function.update_same] at hj
      · have hjl := ih j (inWrite_update_ne s.pcs i j TPc.afterCS hji hj)
        have hil := ih i (Or.inr hpc)
        rw [hil] at hjl
        exact absurd (Option.some.inj hjl).symm hji

/-- Claim C7 (confirmed): in every reachable interleaving of any number
of concurrently faulting threads, at most one thread has an in-flight
write to the channel - the spinlock serializes the whole header-write
plus stack-write section, so two reports can never interleave their
bytes on the pipe. -/
theorem claim_C7 {n : Nat} (s : LockSys n) (hr : LReach s) (i j : Fin n)
    (hi : inWrite s i) (hj : inWrite s j) : i = j := by
  have h1 := lockInv_reach s hr i hi
  have h2 := lockInv_reach s hr j hj
  rw [h1] at h2
  exact Option.some.inj h2

/-- A reachable two-thread state in which thread 0 holds the lock and
is writing the header. -/
def lockDemoState : LockSys 2 :=
  ⟨Function.update (Function.update (lockInit 2).pcs 0 TPc.want) 0 TPc.writeHdr, some 0⟩

/-- Witness for C7: the demo state is reachable, thread 0 is writing,
and the theorem applied there gives the expected identity. -/
theorem claim_C7_witness :
    inWrite lockDemoState 0 ∧ (0 : Fin 2) = 0 :=
  have hreach : LReach lockDemoState :=
    LReach.step _ _ (LReach.step _ _ LReach.init (LStep.fault (lockInit 2) 0 rfl))
      (LStep.acquire ⟨Function.update (lockInit 2).pcs 0 TPc.want, (lockInit 2).lock⟩ 0
        (by simp) rfl)
  ⟨Or.inl (by simp [lockDemoState]),
    claim_C7 lockDemoState hreach 0 0 (Or.inl (by simp [lockDemoState]))
      (Or.inl (by simp [lockDemoState]))⟩

/-! ## Claim C8: sighandler_cleanup (sighandler.cpp lines 214-222) -/

/-- One observable action of sighandler_cleanup. -/
inductive CleanupAct
  | destroyTryBusy
  | destroyOk
  | closeRead
  | closeWrite
  | waitWatchdog
deriving DecidableEq, Repr

/-- Model of sighandler_cleanup for a run in which the spinlock is
found busy k times: while (pthread_spin_destroy(&g_handler_lock) ==
EBUSY) usleep(10 * 1000); then close(g_watchdog_pipe[0]);
close(g_watchdog_pipe[1]).  The function is identical in both topology
variants (it contains no preprocessor branch) and performs no wait on
the watchdog process - the closing comment says reaping is left to
SIGCHLD or to orphaning. -/
def sighandler_cleanup (k : Nat) : List CleanupAct :=
  List.replicate k .destroyTryBusy ++ [.destroyOk, .closeRead, .closeWrite]

/-- Counterexample to C8 as stated: even in the watchdog-as-parent
variant the cleanup sequence contains no wait on the watchdog process
(shown here for the run that finds the lock free at once). -/
theorem claim_C8_cex :
    ((sighandler_cleanup 0).contains CleanupAct.waitWatchdog) = false := by decide

/-- Claim C8 (corrected): on normal shutdown the monitored process
polls - retrying the spinlock destroy, sleeping while it reports busy -
until no capture is in progress, then closes its read descriptor and
its write descriptor, exactly once each and in that order; but it does
not wait for the watchdog's process exit in either topology variant,
relying instead on the SIGCHLD handler (parent variant) or orphan
reparenting (child variant) described in its closing comment. -/
theorem claim_C8 (k : Nat) :
    CleanupAct.waitWatchdog ∉ sighandler_cleanup k ∧
    (sighandler_cleanup k).count CleanupAct.closeRead = 1 ∧
    (sighandler_cleanup k).count CleanupAct.closeWrite = 1 ∧
    (sighandler_cleanup k).getLast? = some CleanupAct.closeWrite ∧
    (sighandler_cleanup k).getD k CleanupAct.destroyTryBusy = CleanupAct.destroyOk ∧
    (∀ j, j < k → (sighandler_cleanup k).getD j CleanupAct.destroyOk
      = CleanupAct.destroyTryBusy) := by
  unfold sighandler_cleanup
  refine ⟨?_, ?_, ?_, ?_, ?_, ?_⟩
  · intro hmem
    rcases List.mem_append.mp hmem with hmem | hmem
    · exact absurd (List.eq_of_mem_replicate hmem) (by decide)
    · simp at hmem
  · rw [List.count_append, List.count_replicate]
    simp
  · rw [List.count_append, List.count_replicate]
    simp
  · rw [List.getLast?_append]
    rfl
  · rw [List.getD_eq_getElem?_getD, List.getElem?_append_right (by simp),
      List.length_replicate]
    simp
  · intro j hj
    rw [List.getD_eq_getElem?_getD, List.getElem?_append_left (by simpa using hj),
      List.getElem?_replicate, if_pos hj]
    rfl

/-- Witness for C8: a run that finds the spinlock busy twice. -/
theorem claim_C8_witness :
    CleanupAct.waitWatchdog ∉ sighandler_cleanup 2 ∧
    (sighandler_cleanup 2).count CleanupAct.closeRead = 1 ∧
    (sighandler_cleanup 2).count CleanupAct.closeWrite = 1 ∧
    (sighandler_cleanup 2).getLast? = some CleanupAct.closeWrite ∧
    (sighandler_cleanup 2).getD 2 CleanupAct.destroyTryBusy = CleanupAct.destroyOk ∧
    (∀ j, j < 2 → (sighandler_cleanup 2).getD j CleanupAct.destroyOk
      = CleanupAct.destroyTryBusy) :=
  claim_C8 2

end GDCE14
